import Mathlib

/-!
Shallow embedding of `py/vtdb/keyspace.py` (Keyspace model and range-sharding
resolver) and proofs about it.

Python 2 byte strings are modelled as `List Nat` (one entry per byte); the
Python `<` comparison on byte strings is the byte-lexicographic order
`bytesLt`.  `struct.Struct('!Q').pack` is the 8-byte big-endian encoding
`pack_keyspace_id`.  Python exceptions are values of `PyExn`, and functions
that can raise return `Except PyExn _`.
-/

namespace Vitess

/-- A Python 2 byte string: one `Nat` per byte, in order. -/
abbrev Bytes := List Nat

/-- Python 2 comparison `s < t` on byte strings: byte-lexicographic, a strict
prefix is smaller. -/
def bytesLt : Bytes → Bytes → Bool
  | _, [] => false
  | [], _ :: _ => true
  | a :: as, b :: bs => a < b || (a == b && bytesLt as bs)

/-- Modelled from the spec: `keyrange_constants.MIN_KEY` (the module
`vtdb/keyrange_constants.py` is not under `src/`).  Section 4.2 calls it the
canonical minimum-key sentinel; the byte-for-byte fixture of section 8 shows
its hex encoding as `"0000000000000000"`, i.e. eight zero bytes. -/
def MIN_KEY : Bytes := List.replicate 8 0

/-- Modelled from the spec: `keyrange_constants.MAX_KEY`, the canonical
maximum-key sentinel, "the all-0xFF / unbounded-end marker" whose hex encoding
in the section 8 fixture is `"FFFFFFFFFFFFFFFF"`: eight `0xFF` bytes. -/
def MAX_KEY : Bytes := List.replicate 8 255

/-- Modelled from the spec: `keyrange_constants.SHARD_ZERO`, "the canonical
zero-shard label (a fixed constant, not derived from hex)", i.e. `"0"`. -/
def SHARD_ZERO : String := "0"

/-- Modelled from the spec: `keyrange_constants.KIT_UNSET`, the explicit
"unset" sentinel that `shardingColumnType` defaults to. -/
def KIT_UNSET : String := ""

/-- Big-endian base-256 digits of `k`, fixed width `n` (most significant
first). -/
def toBytesBE : Nat → Nat → Bytes
  | 0, _ => []
  | n + 1, k => k / 256 ^ n % 256 :: toBytesBE n k

/-- `pack_keyspace_id = struct.Struct('!Q').pack`: the 8-byte big-endian
encoding of a 64-bit key. -/
def pack_keyspace_id (keyspace_id : Nat) : Bytes :=
  toBytesBE 8 keyspace_id

/-- Upper-case hex digit for `n < 16` (as produced by
`.encode('hex').upper()`). -/
def hexDigit (n : Nat) : Char :=
  if n < 10 then Char.ofNat (48 + n) else Char.ofNat (55 + n)

/-- `bs.encode('hex').upper()`: two upper-case hex digits per byte. -/
def hexU (bs : Bytes) : String :=
  String.mk (bs.foldr (fun b acc => hexDigit (b / 16) :: hexDigit (b % 16) :: acc) [])

/-- A shard's `'KeyRange'` record: `{'Start': …, 'End': …}`. -/
structure KeyRange where
  Start : Bytes
  End : Bytes
deriving DecidableEq

/-- One entry of a snapshot's shard list: `{'KeyRange': {...}}`. -/
structure Shard where
  KeyRange : KeyRange
deriving DecidableEq

/-- One value of the `'Partitions'` mapping: `{'Shards': [...]}`. -/
structure KsPartition where
  Shards : List Shard
deriving DecidableEq

/-- The raw `SrvKeyspace` snapshot record.  Optional fields are `Option`;
`none` models an absent dictionary key (`data['TabletTypes']` and
`data['Shards']` raise `KeyError` when absent, the rest are read with
`.get`). -/
structure SrvKeyspaceData where
  TabletTypes : Option (List String)
  Partitions : Option (List (String × KsPartition))
  ShardingColumnName : Option String
  ShardingColumnType : Option String
  ServedFrom : Option (List (String × String))
  Shards : Option (List Shard)
deriving DecidableEq

/-- Modelled from the spec: the exception values this module raises or
observes.  `dbexceptions.OperationalError` (module `vtdb/dbexceptions.py`, not
under `src/`) is per sections 6-7 an operational failure carrying a message,
the keyspace name and, when wrapping, an underlying cause.  `keyError` and
`typeError` model Python's built-in `KeyError`/`TypeError`; `valueError`
models `ValueError` with its two arguments; `other` models an arbitrary
non-operational failure from a collaborator.  The 2-argument and 3-argument
`OperationalError(...)` calls are the two `operationalError*` constructors. -/
inductive PyExn where
  | valueError (msg arg : String)
  | keyError (key : String)
  | typeError
  | operationalError (msg arg : String)
  | operationalErrorCause (msg arg : String) (cause : PyExn)
  | other (tag : String)
deriving DecidableEq

/-- Whether an exception value is a `dbexceptions.OperationalError` (the class
the first `except` clause of `read_keyspace` catches). -/
def isOperationalError : PyExn → Bool
  | .operationalError _ _ => true
  | .operationalErrorCause _ _ _ => true
  | _ => false

/-- The in-memory `Keyspace` object. -/
structure Keyspace where
  name : String
  db_types : List String
  partitions : List (String × KsPartition)
  sharding_col_name : String
  sharding_col_type : String
  served_from : Option (List (String × String))
  shard_count : Nat
  shard_max_keys : Option (List Bytes)
  shard_names : List String
deriving DecidableEq

/-- The shared name-derivation loop body of `get_shard_names` and
`_make_shard_names`: for index `i`, the lower bound is `MIN_KEY` for `i = 0`
and `keys[i-1]` otherwise, and the name is `hex(lower) ++ "-" ++ hex(keys[i])`
in upper case. -/
def hexRangeNames (keys : List Bytes) : List String :=
  (List.range keys.length).map (fun i =>
    let min_key := if i = 0 then MIN_KEY else keys.getD (i - 1) []
    let max_key := keys.getD i []
    hexU min_key ++ "-" ++ hexU max_key)

/-- `Keyspace._make_shard_names`: range names from `shard_max_keys` when it is
truthy (a non-empty list), else the numeric names `str(0) .. str(count-1)`. -/
def make_shard_names (shard_max_keys : Option (List Bytes)) (shard_count : Nat) : List String :=
  match shard_max_keys with
  | some (k :: ks) => hexRangeNames (k :: ks)
  | _ => (List.range shard_count).map (fun x => toString x)

/-- `Keyspace.__init__`: load the object from a snapshot.  `data['TabletTypes']`
and `data['Shards']` raise `KeyError` when the key is absent; `shard_max_keys`
is set exactly when `shard_count > 1` and the FIRST shard's `KeyRange.End` is
non-empty; `shard_names` is computed once via `_make_shard_names`. -/
def Keyspace.load (name : String) (data : SrvKeyspaceData) : Except PyExn Keyspace :=
  match data.TabletTypes with
  | none => Except.error (PyExn.keyError "TabletTypes")
  | some db_types =>
    match data.Shards with
    | none => Except.error (PyExn.keyError "Shards")
    | some shards =>
      let shard_count := shards.length
      let shard_max_keys : Option (List Bytes) :=
        match shards with
        | s :: rest =>
          if 0 < rest.length ∧ s.KeyRange.End ≠ ([] : Bytes) then
            some ((s :: rest).map (fun t => t.KeyRange.End))
          else none
        | [] => none
      Except.ok
        { name := name
          db_types := db_types
          partitions := data.Partitions.getD []
          sharding_col_name := data.ShardingColumnName.getD ""
          sharding_col_type := data.ShardingColumnType.getD KIT_UNSET
          served_from := data.ServedFrom
          shard_count := shard_count
          shard_max_keys := shard_max_keys
          shard_names := make_shard_names shard_max_keys shard_count }

/-- `Keyspace.get_shards`: `self.partitions[db_type]['Shards']`, or `[]` on
`KeyError`. -/
def Keyspace.get_shards (ks : Keyspace) (db_type : String) : List Shard :=
  match List.lookup db_type ks.partitions with
  | some p => p.Shards
  | none => []

/-- `Keyspace.get_shard_count`. -/
def Keyspace.get_shard_count (ks : Keyspace) (db_type : String) : Nat :=
  (ks.get_shards db_type).length

/-- `Keyspace.get_shard_max_keys`: every shard's `KeyRange.End`, in order. -/
def Keyspace.get_shard_max_keys (ks : Keyspace) (db_type : String) : List Bytes :=
  (ks.get_shards db_type).map (fun shard => shard.KeyRange.End)

/-- `Keyspace.get_shard_names`.  The single-shard special case tests the
partition's own max-key list, but the general loop runs over
`self.shard_max_keys` (the top-level list); when that attribute is `None`,
`enumerate(None)` raises `TypeError`. -/
def Keyspace.get_shard_names (ks : Keyspace) (db_type : String) : Except PyExn (List String) :=
  let shard_max_keys := ks.get_shard_max_keys db_type
  if shard_max_keys.length = 1 ∧ shard_max_keys.getD 0 [] = MAX_KEY then
    Except.ok [SHARD_ZERO]
  else
    match ks.shard_max_keys with
    | none => Except.error PyExn.typeError
    | some keys => Except.ok (hexRangeNames keys)

/-- The scan loop shared by both resolver operations:
`for shard_index, shard_max in enumerate(keys): if pkid < shard_max: break`,
then `return shard_index`.  `i` is the index of the head of `keys`; when the
loop ends without a break, `shard_index` holds the last index. -/
def scanLoop (pkid : Bytes) : Nat → List Bytes → Nat
  | i, [] => i
  | i, k :: rest =>
    if bytesLt pkid k then i
    else
      match rest with
      | [] => i
      | r :: rs => scanLoop pkid (i + 1) (r :: rs)

/-- `Keyspace.keyspace_id_to_shard_index_for_db_type`: pack the key big-endian
and scan the partition's max-key list; an empty (falsy) list raises
`ValueError('Keyspace is not range sharded', self.name)`. -/
def Keyspace.keyspace_id_to_shard_index_for_db_type (ks : Keyspace) (keyspace_id : Nat)
    (db_type : String) : Except PyExn Nat :=
  let pkid := pack_keyspace_id keyspace_id
  match ks.get_shard_max_keys db_type with
  | [] => Except.error (PyExn.valueError "Keyspace is not range sharded" ks.name)
  | k :: rest => Except.ok (scanLoop pkid 0 (k :: rest))

/-- `Keyspace.keyspace_id_to_shard_index`: same scan over the top-level
`self.shard_max_keys`; a falsy value (`None` or `[]`) raises
`ValueError('Keyspace is not range sharded', self.name)`. -/
def Keyspace.keyspace_id_to_shard_index (ks : Keyspace) (keyspace_id : Nat) :
    Except PyExn Nat :=
  let pkid := pack_keyspace_id keyspace_id
  match ks.shard_max_keys with
  | some (k :: rest) => Except.ok (scanLoop pkid 0 (k :: rest))
  | _ => Except.error (PyExn.valueError "Keyspace is not range sharded" ks.name)

/-- `read_keyspace`: fetch the snapshot (`fetch` is the already-determined
outcome of `topo_client.get_srv_keyspace('local', keyspace_name)`, where
`Except.ok none` models a falsy result), raise `OperationalError('invalid
empty keyspace', name)` on a falsy snapshot, construct the `Keyspace`;
re-raise any `OperationalError` unchanged, and wrap every other exception as
`OperationalError('invalid keyspace', name, cause)`. -/
def read_keyspace (fetch : Except PyExn (Option SrvKeyspaceData)) (keyspace_name : String) :
    Except PyExn Keyspace :=
  match fetch with
  | Except.error e =>
    if isOperationalError e then Except.error e
    else Except.error (PyExn.operationalErrorCause "invalid keyspace" keyspace_name e)
  | Except.ok none =>
    Except.error (PyExn.operationalError "invalid empty keyspace" keyspace_name)
  | Except.ok (some data) =>
    match Keyspace.load keyspace_name data with
    | Except.ok ks => Except.ok ks
    | Except.error e =>
      if isOperationalError e then Except.error e
      else Except.error (PyExn.operationalErrorCause "invalid keyspace" keyspace_name e)

/-- Index of the first entry of `keys` strictly greater than `pkid` (the index
at which the resolver's scan loop breaks), if any. -/
def firstLtIdx (pkid : Bytes) : List Bytes → Option Nat
  | [] => none
  | b :: bs => if bytesLt pkid b then some 0 else (firstLtIdx pkid bs).map (· + 1)

/-- The value the scan loop computes when started at index 0 on a non-empty
list: the index of the first entry strictly greater than `pkid`, or the last
index when the scan falls through. -/
def scanSpec (pkid : Bytes) (keys : List Bytes) : Nat :=
  match firstLtIdx pkid keys with
  | some j => j
  | none => keys.length - 1

theorem bytesLt_nil_right (a : Bytes) : bytesLt a [] = false := by
  cases a <;> rfl

theorem bytesLt_irrefl (a : Bytes) : bytesLt a a = false := by
  induction a with
  | nil => rfl
  | cons x xs ih => simp [bytesLt, ih]

theorem bytesLt_trans : ∀ {a b c : Bytes},
    bytesLt a b = true → bytesLt b c = true → bytesLt a c = true := by
  intro a
  induction a with
  | nil =>
    intro b c _ h2
    cases c with
    | nil => rw [bytesLt_nil_right] at h2; exact absurd h2 (by simp)
    | cons z zs => rfl
  | cons x xs ih =>
    intro b c h1 h2
    cases b with
    | nil => rw [bytesLt_nil_right] at h1; exact absurd h1 (by simp)
    | cons y ys =>
      cases c with
      | nil => rw [bytesLt_nil_right] at h2; exact absurd h2 (by simp)
      | cons z zs =>
        simp only [bytesLt, Bool.or_eq_true, Bool.and_eq_true, decide_eq_true_eq,
          beq_iff_eq] at h1 h2 ⊢
        rcases h1 with h1 | ⟨hxy, h1⟩ <;> rcases h2 with h2 | ⟨hyz, h2⟩
        · exact Or.inl (lt_trans h1 h2)
        · exact Or.inl (hyz ▸ h1)
        · exact Or.inl (hxy ▸ h2)
        · exact Or.inr ⟨hxy.trans hyz, ih h1 h2⟩

theorem bytesLt_asymm {a b : Bytes} (h : bytesLt a b = true) : bytesLt b a = false := by
  cases hb : bytesLt b a
  · rfl
  · have habs := bytesLt_trans h hb
    rw [bytesLt_irrefl] at habs
    exact absurd habs (by simp)

theorem firstLtIdx_some_lt : ∀ {keys : List Bytes} {pkid : Bytes} {j : Nat},
    firstLtIdx pkid keys = some j → j < keys.length := by
  intro keys
  induction keys with
  | nil => intro pkid j h; simp [firstLtIdx] at h
  | cons k rest ih =>
    intro pkid j h
    cases hk : bytesLt pkid k with
    | true =>
      simp only [firstLtIdx, hk, if_true] at h
      simp only [Option.some.injEq] at h
      simp [← h]
    | false =>
      simp only [firstLtIdx, hk, Bool.false_eq_true, if_false, Option.map_eq_some'] at h
      obtain ⟨j', hj', rfl⟩ := h
      have := ih hj'
      simp only [List.length_cons]
      omega

theorem firstLtIdx_none_of : ∀ {keys : List Bytes} {pkid : Bytes},
    (∀ b ∈ keys, bytesLt pkid b = false) → firstLtIdx pkid keys = none := by
  intro keys
  induction keys with
  | nil => intro pkid _; rfl
  | cons k rest ih =>
    intro pkid h
    have hk : bytesLt pkid k = false := h k (by simp)
    have hrest := ih (fun b hb => h b (by simp [hb]))
    simp [firstLtIdx, hk, hrest]

theorem firstLtIdx_mono {p1 p2 : Bytes}
    (hmono : ∀ b, bytesLt p2 b = true → bytesLt p1 b = true) :
    ∀ {keys : List Bytes} {j2 : Nat}, firstLtIdx p2 keys = some j2 →
      ∃ j1, firstLtIdx p1 keys = some j1 ∧ j1 ≤ j2 := by
  intro keys
  induction keys with
  | nil => intro j2 h; simp [firstLtIdx] at h
  | cons k rest ih =>
    intro j2 h2
    cases h1k : bytesLt p1 k with
    | true => exact ⟨0, by simp [firstLtIdx, h1k], Nat.zero_le _⟩
    | false =>
      have h2k : bytesLt p2 k = false := by
        cases hb : bytesLt p2 k
        · rfl
        · have := hmono k hb
          rw [h1k] at this
          exact absurd this (by simp)
      simp only [firstLtIdx, h2k, Bool.false_eq_true, if_false, Option.map_eq_some'] at h2
      obtain ⟨j2', hj2', rfl⟩ := h2
      obtain ⟨j1', hj1', hle⟩ := ih hj2'
      exact ⟨j1' + 1, by simp [firstLtIdx, h1k, hj1'], by omega⟩

theorem firstLtIdx_eq_succ (pkid : Bytes) :
    ∀ (keys : List Bytes) (i : Nat),
      (∀ j', j' ≤ i → bytesLt pkid (keys.getD j' []) = false) →
      i + 1 < keys.length →
      bytesLt pkid (keys.getD (i + 1) []) = true →
      firstLtIdx pkid keys = some (i + 1) := by
  intro keys
  induction keys with
  | nil => intro i _ h2 _; simp at h2
  | cons k rest ih =>
    intro i h1 h2 h3
    have hk : bytesLt pkid k = false := by
      have := h1 0 (Nat.zero_le i)
      simpa using this
    cases i with
    | zero =>
      cases rest with
      | nil => simp at h2
      | cons r rs =>
        have hr : bytesLt pkid r = true := by simpa using h3
        simp [firstLtIdx, hk, hr]
    | succ i' =>
      have hrest := ih i' (fun j' hj' => by simpa using h1 (j' + 1) (by omega))
        (by simp at h2; omega) (by simpa using h3)
      simp [firstLtIdx, hk, hrest]

theorem scanLoop_cons (pkid : Bytes) (i : Nat) (k : Bytes) (rest : List Bytes) :
    scanLoop pkid i (k :: rest) =
      if bytesLt pkid k then i
      else
        match rest with
        | [] => i
        | r :: rs => scanLoop pkid (i + 1) (r :: rs) := by
  cases rest with
  | nil => rfl
  | cons r rs => rfl

theorem scanSpec_cons_false {pkid k r : Bytes} {rs : List Bytes}
    (hk : bytesLt pkid k = false) :
    scanSpec pkid (k :: r :: rs) = scanSpec pkid (r :: rs) + 1 := by
  unfold scanSpec
  have hexp : firstLtIdx pkid (k :: r :: rs) = (firstLtIdx pkid (r :: rs)).map (· + 1) := by
    simp [firstLtIdx, hk]
  rw [hexp]
  cases hf : firstLtIdx pkid (r :: rs) with
  | some j => simp
  | none => simp [List.length_cons]

theorem scanLoop_eq (pkid : Bytes) : ∀ (keys : List Bytes) (i : Nat), keys ≠ [] →
    scanLoop pkid i keys = i + scanSpec pkid keys := by
  intro keys
  induction keys with
  | nil => intro i h; exact absurd rfl h
  | cons k rest ih =>
    intro i _
    cases hk : bytesLt pkid k with
    | true => rw [scanLoop_cons]; simp [scanSpec, firstLtIdx, hk]
    | false =>
      cases rest with
      | nil => rw [scanLoop_cons]; simp [scanSpec, firstLtIdx, hk]
      | cons r rs =>
        have ihr := ih (i + 1) (by simp)
        rw [scanLoop_cons]
        simp only [hk, Bool.false_eq_true, if_false]
        rw [ihr, scanSpec_cons_false hk]
        omega

theorem scanSpec_lt_length {pkid : Bytes} {keys : List Bytes} (hne : keys ≠ []) :
    scanSpec pkid keys < keys.length := by
  unfold scanSpec
  cases hf : firstLtIdx pkid keys with
  | some j => exact firstLtIdx_some_lt hf
  | none =>
    cases keys with
    | nil => exact absurd rfl hne
    | cons k rest => simp only [List.length_cons]; omega

theorem scanSpec_of_no_break {pkid : Bytes} {keys : List Bytes}
    (h : ∀ b ∈ keys, bytesLt pkid b = false) :
    scanSpec pkid keys = keys.length - 1 := by
  unfold scanSpec
  rw [firstLtIdx_none_of h]

theorem scanSpec_mono {p1 p2 : Bytes} {keys : List Bytes}
    (hmono : ∀ b, bytesLt p2 b = true → bytesLt p1 b = true) :
    scanSpec p1 keys ≤ scanSpec p2 keys := by
  unfold scanSpec
  cases hf2 : firstLtIdx p2 keys with
  | some j2 =>
    obtain ⟨j1, hf1, hle⟩ := firstLtIdx_mono hmono hf2
    rw [hf1]
    exact hle
  | none =>
    cases hf1 : firstLtIdx p1 keys with
    | some j1 =>
      have hlen := firstLtIdx_some_lt hf1
      show j1 ≤ keys.length - 1
      omega
    | none => exact le_refl _

theorem bool_ext {x y : Bool} (h : (x = true) ↔ (y = true)) : x = y := by
  cases x <;> cases y <;> simp_all

theorem mod_pow_succ_decomp (a P : Nat) (hP : 0 < P) :
    a % (P * 256) = a / P % 256 * P + a % P := by
  conv_lhs => rw [← Nat.div_add_mod (a % (P * 256)) P]
  rw [Nat.mod_mul_right_div_self, Nat.mod_mod_of_dvd _ ⟨256, rfl⟩]
  ring

theorem digit_cmp {P A B DA DB : Nat} (hA : A < P) (hB : B < P) :
    DA * P + A < DB * P + B ↔ DA < DB ∨ (DA = DB ∧ A < B) := by
  constructor
  · intro h
    rcases Nat.lt_trichotomy DA DB with h' | h' | h'
    · exact Or.inl h'
    · exact Or.inr ⟨h', by subst h'; omega⟩
    · exfalso
      have h1 : (DB + 1) * P ≤ DA * P := Nat.mul_le_mul_right P h'
      have h2 : (DB + 1) * P = DB * P + P := by ring
      omega
  · rintro (h' | ⟨rfl, h'⟩)
    · have h1 : (DA + 1) * P ≤ DB * P := Nat.mul_le_mul_right P h'
      have h2 : (DA + 1) * P = DA * P + P := by ring
      omega
    · omega

theorem bytesLt_toBytesBE : ∀ (n a b : Nat),
    bytesLt (toBytesBE n a) (toBytesBE n b) = decide (a % 256 ^ n < b % 256 ^ n) := by
  intro n
  induction n with
  | zero => intro a b; simp [toBytesBE, bytesLt, Nat.mod_one]
  | succ n ih =>
    intro a b
    have hP : 0 < (256 : Nat) ^ n := pow_pos (by omega) n
    have hA : a % 256 ^ n < 256 ^ n := Nat.mod_lt _ hP
    have hB : b % 256 ^ n < 256 ^ n := Nat.mod_lt _ hP
    have hda : a % 256 ^ (n + 1) = a / 256 ^ n % 256 * 256 ^ n + a % 256 ^ n := by
      rw [pow_succ]; exact mod_pow_succ_decomp a (256 ^ n) hP
    have hdb : b % 256 ^ (n + 1) = b / 256 ^ n % 256 * 256 ^ n + b % 256 ^ n := by
      rw [pow_succ]; exact mod_pow_succ_decomp b (256 ^ n) hP
    apply bool_ext
    simp only [toBytesBE, bytesLt, Bool.or_eq_true, Bool.and_eq_true, decide_eq_true_eq,
      beq_iff_eq, ih]
    rw [hda, hdb]
    exact (digit_cmp hA hB).symm

theorem pack_keyspace_id_lt {k1 k2 : Nat} (h12 : k1 < k2) (h2 : k2 < 2 ^ 64) :
    bytesLt (pack_keyspace_id k1) (pack_keyspace_id k2) = true := by
  have h8 : (256 : Nat) ^ 8 = 2 ^ 64 := by norm_num
  rw [pack_keyspace_id, pack_keyspace_id, bytesLt_toBytesBE, h8,
    Nat.mod_eq_of_lt (lt_trans h12 h2), Nat.mod_eq_of_lt h2]
  exact decide_eq_true h12

theorem getD_mem : ∀ (l : List Bytes) (j : Nat), j < l.length → l.getD j [] ∈ l := by
  intro l
  induction l with
  | nil => intro j h; simp at h
  | cons x xs ih =>
    intro j h
    cases j with
    | zero => simp
    | succ j' =>
      simp only [List.getD_cons_succ]
      exact List.mem_cons_of_mem x (ih j' (by simp only [List.length_cons] at h; omega))

theorem pairwise_getD : ∀ {keys : List Bytes},
    List.Pairwise (fun a b : Bytes => bytesLt a b = true) keys →
    ∀ a b, a < b → b < keys.length → bytesLt (keys.getD a []) (keys.getD b []) = true := by
  intro keys
  induction keys with
  | nil => intro _ a b _ hb; simp at hb
  | cons k rest ih =>
    intro hp a b hab hb
    rcases List.pairwise_cons.mp hp with ⟨hk, hrest⟩
    cases a with
    | zero =>
      cases b with
      | zero => omega
      | succ b' =>
        simp only [List.getD_cons_zero, List.getD_cons_succ]
        exact hk _ (getD_mem rest b' (by simp only [List.length_cons] at hb; omega))
    | succ a' =>
      cases b with
      | zero => omega
      | succ b' =>
        simp only [List.getD_cons_succ]
        exact ih hrest a' b' (by omega) (by simp only [List.length_cons] at hb; omega)

theorem keyspace_id_to_shard_index_some {ks : Keyspace} {k : Bytes} {rest : List Bytes}
    (hsmk : ks.shard_max_keys = some (k :: rest)) (keyspace_id : Nat) :
    ks.keyspace_id_to_shard_index keyspace_id =
      Except.ok (scanSpec (pack_keyspace_id keyspace_id) (k :: rest)) := by
  simp only [Keyspace.keyspace_id_to_shard_index, hsmk]
  rw [scanLoop_eq _ _ _ (by simp)]
  simp

theorem keyspace_id_to_shard_index_for_db_type_cons {ks : Keyspace} {db_type : String}
    {k : Bytes} {rest : List Bytes}
    (h : ks.get_shard_max_keys db_type = k :: rest) (keyspace_id : Nat) :
    ks.keyspace_id_to_shard_index_for_db_type keyspace_id db_type =
      Except.ok (scanSpec (pack_keyspace_id keyspace_id) (k :: rest)) := by
  simp only [Keyspace.keyspace_id_to_shard_index_for_db_type, h]
  rw [scanLoop_eq _ _ _ (by simp)]
  simp

/-- C3: for every range-sharded `Keyspace` (`shard_max_keys` present with
`N ≥ 1` entries) and every `keyspace_id` in `[0, 2^64)`,
`keyspace_id_to_shard_index` terminates normally with an index in `[0, N)`;
when the packed 8-byte big-endian key is not byte-lexicographically below any
entry, the returned index is the last valid one, `N - 1`. -/
theorem C3_resolver_total_in_range (ks : Keyspace) (keys : List Bytes)
    (hsmk : ks.shard_max_keys = some keys) (hne : keys ≠ [])
    (keyspace_id : Nat) (hkid : keyspace_id < 2 ^ 64) :
    ∃ i, ks.keyspace_id_to_shard_index keyspace_id = Except.ok i ∧ i < keys.length ∧
      ((∀ b ∈ keys, bytesLt (pack_keyspace_id keyspace_id) b = false) →
        i = keys.length - 1) := by
  obtain ⟨k, rest, rfl⟩ : ∃ k rest, keys = k :: rest := by
    cases keys with
    | nil => exact absurd rfl hne
    | cons k rest => exact ⟨k, rest, rfl⟩
  exact ⟨scanSpec (pack_keyspace_id keyspace_id) (k :: rest),
    keyspace_id_to_shard_index_some hsmk keyspace_id,
    scanSpec_lt_length (by simp),
    fun hall => scanSpec_of_no_break hall⟩

/-- C4: for a range-sharded `Keyspace` whose `shard_max_keys` is strictly
ascending and `0 ≤ i < shard count - 1`, a key whose 8-byte big-endian packing
equals `shard_max_keys[i]` resolves to shard index `i + 1`, not `i`. -/
theorem C4_boundary_key_next_shard (ks : Keyspace) (keys : List Bytes)
    (hsmk : ks.shard_max_keys = some keys)
    (hasc : List.Pairwise (fun a b : Bytes => bytesLt a b = true) keys)
    (i : Nat) (hi : i + 1 < keys.length) (keyspace_id : Nat)
    (hkid : keyspace_id < 2 ^ 64)
    (hpk : pack_keyspace_id keyspace_id = keys.getD i []) :
    ks.keyspace_id_to_shard_index keyspace_id = Except.ok (i + 1) := by
  obtain ⟨k, rest, rfl⟩ : ∃ k rest, keys = k :: rest := by
    cases keys with
    | nil => simp at hi
    | cons k rest => exact ⟨k, rest, rfl⟩
  rw [keyspace_id_to_shard_index_some hsmk keyspace_id]
  have hfalse : ∀ j', j' ≤ i →
      bytesLt (pack_keyspace_id keyspace_id) ((k :: rest).getD j' []) = false := by
    intro j' hj'
    rcases Nat.lt_or_ge j' i with hlt | hge
    · rw [hpk]
      exact bytesLt_asymm (pairwise_getD hasc j' i hlt (by omega))
    · have heq : j' = i := by omega
      subst heq
      rw [hpk]
      exact bytesLt_irrefl _
  have htrue : bytesLt (pack_keyspace_id keyspace_id) ((k :: rest).getD (i + 1) []) = true := by
    rw [hpk]
    exact pairwise_getD hasc i (i + 1) (by omega) hi
  have hf := firstLtIdx_eq_succ (pack_keyspace_id keyspace_id) (k :: rest) i hfalse hi htrue
  unfold scanSpec
  rw [hf]

/-- C5: for a range-sharded `Keyspace` and unsigned 64-bit keys `k1 < k2`,
the resolved shard index of `k1` is at most that of `k2`. -/
theorem C5_resolver_monotone (ks : Keyspace) (keys : List Bytes)
    (hsmk : ks.shard_max_keys = some keys) (hne : keys ≠ [])
    (k1 k2 : Nat) (h12 : k1 < k2) (h2 : k2 < 2 ^ 64) :
    ∃ i1 i2, ks.keyspace_id_to_shard_index k1 = Except.ok i1 ∧
      ks.keyspace_id_to_shard_index k2 = Except.ok i2 ∧ i1 ≤ i2 := by
  obtain ⟨k, rest, rfl⟩ : ∃ k rest, keys = k :: rest := by
    cases keys with
    | nil => exact absurd rfl hne
    | cons k rest => exact ⟨k, rest, rfl⟩
  exact ⟨_, _, keyspace_id_to_shard_index_some hsmk k1,
    keyspace_id_to_shard_index_some hsmk k2,
    scanSpec_mono (fun b hb => bytesLt_trans (pack_keyspace_id_lt h12 h2) hb)⟩

/-- C7: for every `Keyspace` and tablet type whose partition shard list is a
single shard whose upper bound is the canonical maximum-key sentinel,
`get_shard_names` returns the single-element list holding the canonical
zero-shard label `"0"`, not a hex range name. -/
theorem C7_single_max_shard_named_zero (ks : Keyspace) (db_type : String) (s : Shard)
    (hs : ks.get_shards db_type = [s]) (hmax : s.KeyRange.End = MAX_KEY) :
    ks.get_shard_names db_type = Except.ok [SHARD_ZERO] := by
  have h1 : ks.get_shard_max_keys db_type = [MAX_KEY] := by
    unfold Keyspace.get_shard_max_keys
    rw [hs]
    simp [hmax]
  simp [Keyspace.get_shard_names, h1]

/-- C8: `keyspace_id_to_shard_index` on a `Keyspace` whose `shard_max_keys`
is absent fails with the not-range-sharded `ValueError` carrying the keyspace
name, and `keyspace_id_to_shard_index_for_db_type` for a tablet type absent
from `partitions` (empty effective shard list) fails with the same error, for
every key. -/
theorem C8_not_range_sharded_errors (ks : Keyspace) (keyspace_id : Nat) :
    (ks.shard_max_keys = none →
      ks.keyspace_id_to_shard_index keyspace_id =
        Except.error (PyExn.valueError "Keyspace is not range sharded" ks.name)) ∧
    (∀ db_type, List.lookup db_type ks.partitions = none →
      ks.keyspace_id_to_shard_index_for_db_type keyspace_id db_type =
        Except.error (PyExn.valueError "Keyspace is not range sharded" ks.name)) := by
  constructor
  · intro h
    simp [Keyspace.keyspace_id_to_shard_index, h]
  · intro db_type h
    simp [Keyspace.keyspace_id_to_shard_index_for_db_type, Keyspace.get_shard_max_keys,
      Keyspace.get_shards, h]

/-- C10: for every `Keyspace` and tablet type present in `partitions` with a
non-empty shard list all of whose `KeyRange.End` bounds are the empty byte
string, `keyspace_id_to_shard_index_for_db_type` does not fail for any 64-bit
key: it silently returns the last index (the shard-list length minus one),
because no packed key is byte-lexicographically below the empty string. -/
theorem C10_all_empty_ends_return_last (ks : Keyspace) (db_type : String)
    (hne : ks.get_shards db_type ≠ [])
    (hempty : ∀ s ∈ ks.get_shards db_type, s.KeyRange.End = ([] : Bytes))
    (keyspace_id : Nat) (hkid : keyspace_id < 2 ^ 64) :
    ks.keyspace_id_to_shard_index_for_db_type keyspace_id db_type =
      Except.ok ((ks.get_shards db_type).length - 1) := by
  obtain ⟨s0, srest, hs⟩ : ∃ s0 srest, ks.get_shards db_type = s0 :: srest := by
    cases h : ks.get_shards db_type with
    | nil => exact absurd h hne
    | cons a l => exact ⟨a, l, rfl⟩
  have hmk : ks.get_shard_max_keys db_type =
      s0.KeyRange.End :: srest.map (fun shard => shard.KeyRange.End) := by
    unfold Keyspace.get_shard_max_keys
    rw [hs, List.map_cons]
  rw [keyspace_id_to_shard_index_for_db_type_cons hmk keyspace_id]
  have hall : ∀ b ∈ s0.KeyRange.End :: srest.map (fun shard => shard.KeyRange.End),
      bytesLt (pack_keyspace_id keyspace_id) b = false := by
    intro b hb
    have hbe : b = ([] : Bytes) := by
      rcases List.mem_cons.mp hb with rfl | hmem
      · exact hempty s0 (by rw [hs]; simp)
      · obtain ⟨t, htmem, rfl⟩ := List.mem_map.mp hmem
        exact hempty t (by rw [hs]; simp [htmem])
    rw [hbe]
    exact bytesLt_nil_right _
  rw [scanSpec_of_no_break hall, hs]
  simp

/-- Witness for C3: a concrete 2-shard range-sharded keyspace and key 5. -/
theorem C3_resolver_total_in_range_witness :
    ∃ i, Keyspace.keyspace_id_to_shard_index
        ⟨"w3", [], [], "", "", none, 2,
          some [[0, 0, 0, 0, 0, 0, 0, 1], [0, 0, 0, 0, 0, 0, 0, 9]], []⟩ 5 =
      Except.ok i ∧
      i < ([[0, 0, 0, 0, 0, 0, 0, 1], [0, 0, 0, 0, 0, 0, 0, 9]] : List Bytes).length ∧
      ((∀ b ∈ ([[0, 0, 0, 0, 0, 0, 0, 1], [0, 0, 0, 0, 0, 0, 0, 9]] : List Bytes),
          bytesLt (pack_keyspace_id 5) b = false) →
        i = ([[0, 0, 0, 0, 0, 0, 0, 1], [0, 0, 0, 0, 0, 0, 0, 9]] : List Bytes).length - 1) :=
  C3_resolver_total_in_range _ _ rfl (by decide) 5 (by decide)

/-- Witness for C4: packing key 1 hits the first boundary and resolves to
shard 1. -/
theorem C4_boundary_key_next_shard_witness :
    Keyspace.keyspace_id_to_shard_index
        ⟨"w4", [], [], "", "", none, 2,
          some [[0, 0, 0, 0, 0, 0, 0, 1], [0, 0, 0, 0, 0, 0, 0, 2]], []⟩ 1 =
      Except.ok 1 :=
  C4_boundary_key_next_shard _ _ rfl (by decide) 0 (by decide) 1 (by decide) (by decide)

/-- Witness for C5 at keys 1 < 5. -/
theorem C5_resolver_monotone_witness :
    ∃ i1 i2, Keyspace.keyspace_id_to_shard_index
        ⟨"w5", [], [], "", "", none, 2,
          some [[0, 0, 0, 0, 0, 0, 0, 3], [0, 0, 0, 0, 0, 0, 0, 7]], []⟩ 1 = Except.ok i1 ∧
      Keyspace.keyspace_id_to_shard_index
        ⟨"w5", [], [], "", "", none, 2,
          some [[0, 0, 0, 0, 0, 0, 0, 3], [0, 0, 0, 0, 0, 0, 0, 7]], []⟩ 5 = Except.ok i2 ∧
      i1 ≤ i2 :=
  C5_resolver_monotone _ _ rfl (by decide) 1 5 (by decide) (by decide)

/-- Witness for C7: a partition with one shard bounded by `MAX_KEY`. -/
theorem C7_single_max_shard_named_zero_witness :
    Keyspace.get_shard_names
        ⟨"w7", [], [("master", ⟨[⟨⟨[], MAX_KEY⟩⟩]⟩)], "", "", none, 1, none, ["0"]⟩
        "master" = Except.ok [SHARD_ZERO] :=
  C7_single_max_shard_named_zero _ "master" ⟨⟨[], MAX_KEY⟩⟩ (by decide) rfl

/-- Witness for C8: a keyspace with no boundary data and no partitions. -/
theorem C8_not_range_sharded_errors_witness :
    Keyspace.keyspace_id_to_shard_index ⟨"w8", [], [], "", "", none, 1, none, ["0"]⟩ 7 =
      Except.error (PyExn.valueError "Keyspace is not range sharded" "w8") ∧
    Keyspace.keyspace_id_to_shard_index_for_db_type
        ⟨"w8", [], [], "", "", none, 1, none, ["0"]⟩ 7 "replica" =
      Except.error (PyExn.valueError "Keyspace is not range sharded" "w8") :=
  ⟨(C8_not_range_sharded_errors _ 7).1 rfl,
   (C8_not_range_sharded_errors _ 7).2 "replica" rfl⟩

/-- Witness for C10: two shards whose `End` bounds are both empty. -/
theorem C10_all_empty_ends_return_last_witness :
    Keyspace.keyspace_id_to_shard_index_for_db_type
        ⟨"w10", [], [("master", ⟨[⟨⟨[], []⟩⟩, ⟨⟨[], []⟩⟩]⟩)], "", "", none, 2, none, []⟩ 7
        "master" = Except.ok 1 :=
  C10_all_empty_ends_return_last _ "master" (by decide) (by decide) 7 (by decide)

/-- C2 counterexample: a constructor-accepted snapshot with `shardCount = 2`
whose LAST shard's upper bound is non-empty (`[1]`) but whose FIRST shard's is
empty; the constructor leaves `shard_max_keys` absent, refuting the claim's
populate condition phrased on the last shard. -/
theorem C2_counterexample :
    (Keyspace.load "ks" ⟨some [], none, none, none, none,
        some [⟨⟨[], []⟩⟩, ⟨⟨[], [1]⟩⟩]⟩).toOption.map Keyspace.shard_max_keys =
      some none ∧
    (Keyspace.load "ks" ⟨some [], none, none, none, none,
        some [⟨⟨[], []⟩⟩, ⟨⟨[], [1]⟩⟩]⟩).toOption.map Keyspace.shard_count = some 2 :=
  ⟨rfl, rfl⟩

/-- C2 (amended): for every snapshot accepted by the constructor,
`shard_max_keys` is populated (with every shard's range-end in snapshot
order) iff `shardCount > 1` and the FIRST shard's upper bound is non-empty;
in every other case it is absent (`none`), never an empty list. -/
theorem C2_amended_populate_iff_first_end (name : String) (data : SrvKeyspaceData)
    (shards : List Shard) (hS : data.Shards = some shards)
    (ks : Keyspace) (h : Keyspace.load name data = Except.ok ks) :
    ks.shard_max_keys =
      if 1 < shards.length ∧ (shards.headD ⟨⟨[], []⟩⟩).KeyRange.End ≠ ([] : Bytes) then
        some (shards.map (fun s => s.KeyRange.End))
      else none := by
  cases hT : data.TabletTypes with
  | none =>
    unfold Keyspace.load at h
    rw [hT] at h
    simp at h
  | some db_types =>
    unfold Keyspace.load at h
    rw [hT, hS] at h
    simp only [Except.ok.injEq] at h
    cases shards with
    | nil =>
      subst h
      simp
    | cons s rest =>
      subst h
      have hiff : (1 < (s :: rest).length ∧
          ((s :: rest).headD ⟨⟨[], []⟩⟩).KeyRange.End ≠ ([] : Bytes)) ↔
          (0 < rest.length ∧ s.KeyRange.End ≠ ([] : Bytes)) := by
        rw [List.headD_cons, List.length_cons]
        constructor
        · rintro ⟨h1, h2⟩
          exact ⟨by omega, h2⟩
        · rintro ⟨h1, h2⟩
          exact ⟨by omega, h2⟩
      show (if 0 < rest.length ∧ s.KeyRange.End ≠ ([] : Bytes) then
          some ((s :: rest).map (fun t => t.KeyRange.End)) else none) = _
      by_cases hc : 0 < rest.length ∧ s.KeyRange.End ≠ ([] : Bytes)
      · rw [if_pos hc, if_pos (hiff.mpr hc)]
      · rw [if_neg hc, if_neg (fun hcon => hc (hiff.mp hcon))]

/-- Witness for the amended C2 at a concrete 2-shard snapshot with non-empty
first bound. -/
theorem C2_amended_populate_iff_first_end_witness :
    (Keyspace.load "w2" ⟨some [], none, none, none, none,
        some [⟨⟨[], [1]⟩⟩, ⟨⟨[], [2]⟩⟩]⟩).toOption.map Keyspace.shard_max_keys =
      some (some [[1], [2]]) := by
  cases hload : Keyspace.load "w2" ⟨some [], none, none, none, none,
      some [⟨⟨[], [1]⟩⟩, ⟨⟨[], [2]⟩⟩]⟩ with
  | error e =>
    have hok : (Keyspace.load "w2" ⟨some [], none, none, none, none,
        some [⟨⟨[], [1]⟩⟩, ⟨⟨[], [2]⟩⟩]⟩).toOption.isSome = true := by decide
    rw [hload] at hok
    simp [Except.toOption] at hok
  | ok ks =>
    have hfield := C2_amended_populate_iff_first_end "w2" _ _ rfl ks hload
    show some ks.shard_max_keys = some (some [[1], [2]])
    rw [hfield]
    decide

/-- C6: a 2-shard range-sharded keyspace whose single interior boundary is
`pack(0x8000000000000000)` and whose final upper bound is the canonical
max-key sentinel derives exactly the names
`"0000000000000000-8000000000000000"` and
`"8000000000000000-FFFFFFFFFFFFFFFF"`. -/
theorem C6_two_shard_hex_names :
    (Keyspace.load "ks" ⟨some [], none, none, none, none,
        some [⟨⟨[], pack_keyspace_id 0x8000000000000000⟩⟩,
              ⟨⟨pack_keyspace_id 0x8000000000000000, MAX_KEY⟩⟩]⟩).toOption.map
      Keyspace.shard_names =
    some ["0000000000000000-8000000000000000", "8000000000000000-FFFFFFFFFFFFFFFF"] := by
  rfl

/-- C1: evaluation at the failing input.  The queried partition's own bounds
split at `0x80…`, but `get_shard_names` runs its general loop over the
TOP-LEVEL `self.shard_max_keys` (split at `0x40…`), so the returned names are
derived from the top-level list and differ from the partition-derived
names. -/
theorem C1_names_from_top_level_not_partition :
    (Keyspace.load "ks" ⟨some ["replica"],
        some [("replica", ⟨[⟨⟨[], pack_keyspace_id 0x8000000000000000⟩⟩,
                            ⟨⟨pack_keyspace_id 0x8000000000000000, MAX_KEY⟩⟩]⟩)],
        none, none, none,
        some [⟨⟨[], pack_keyspace_id 0x4000000000000000⟩⟩,
              ⟨⟨pack_keyspace_id 0x4000000000000000, MAX_KEY⟩⟩]⟩).toOption.map
      (fun ks => ks.get_shard_names "replica") =
      some (Except.ok ["0000000000000000-4000000000000000",
                       "4000000000000000-FFFFFFFFFFFFFFFF"]) ∧
    (Keyspace.load "ks" ⟨some ["replica"],
        some [("replica", ⟨[⟨⟨[], pack_keyspace_id 0x8000000000000000⟩⟩,
                            ⟨⟨pack_keyspace_id 0x8000000000000000, MAX_KEY⟩⟩]⟩)],
        none, none, none,
        some [⟨⟨[], pack_keyspace_id 0x4000000000000000⟩⟩,
              ⟨⟨pack_keyspace_id 0x4000000000000000, MAX_KEY⟩⟩]⟩).toOption.map
      (fun ks => hexRangeNames (ks.get_shard_max_keys "replica")) =
      some ["0000000000000000-8000000000000000",
            "8000000000000000-FFFFFFFFFFFFFFFF"] :=
  ⟨rfl, rfl⟩

/-- C9 counterexample: an underlying `OperationalError` that is not the
empty-keyspace failure propagates unchanged through `read_keyspace` — it is
not re-wrapped as "invalid keyspace" with the cause, contrary to the claim's
"any other underlying failure is wrapped". -/
theorem C9_operational_error_not_wrapped :
    read_keyspace (Except.error (PyExn.operationalError "boom" "x")) "ks" =
      Except.error (PyExn.operationalError "boom" "x") ∧
    PyExn.operationalError "boom" "x" ≠
      PyExn.operationalErrorCause "invalid keyspace" "ks"
        (PyExn.operationalError "boom" "x") :=
  ⟨rfl, by decide⟩

/-- C9 (amended): `read_keyspace` turns a successful-but-empty snapshot into
the "invalid empty keyspace" operational failure carrying the keyspace name;
a failure that is already an `OperationalError` (in particular the
empty-keyspace failure) propagates unchanged; and every non-operational
failure — from the fetch or from constructing the `Keyspace` — is wrapped as
"invalid keyspace" carrying the keyspace name and the underlying cause. -/
theorem C9_amended_wrap_policy (keyspace_name : String) :
    (read_keyspace (Except.ok none) keyspace_name =
      Except.error (PyExn.operationalError "invalid empty keyspace" keyspace_name)) ∧
    (∀ e, isOperationalError e = true →
      read_keyspace (Except.error e) keyspace_name = Except.error e) ∧
    (∀ e, isOperationalError e = false →
      read_keyspace (Except.error e) keyspace_name =
        Except.error (PyExn.operationalErrorCause "invalid keyspace" keyspace_name e)) ∧
    (∀ data ks, Keyspace.load keyspace_name data = Except.ok ks →
      read_keyspace (Except.ok (some data)) keyspace_name = Except.ok ks) ∧
    (∀ data e, Keyspace.load keyspace_name data = Except.error e →
      isOperationalError e = false →
      read_keyspace (Except.ok (some data)) keyspace_name =
        Except.error (PyExn.operationalErrorCause "invalid keyspace" keyspace_name e)) := by
  refine ⟨rfl, ?_, ?_, ?_, ?_⟩
  · intro e he
    simp [read_keyspace, he]
  · intro e he
    simp [read_keyspace, he]
  · intro data ks hload
    simp [read_keyspace, hload]
  · intro data e hload he
    simp [read_keyspace, hload, he]

/-- Witness for the amended C9: a non-operational fetch failure is wrapped
with name and cause. -/
theorem C9_amended_wrap_policy_witness :
    read_keyspace (Except.error (PyExn.other "net")) "w9" =
      Except.error (PyExn.operationalErrorCause "invalid keyspace" "w9" (PyExn.other "net")) :=
  (C9_amended_wrap_policy "w9").2.2.1 (PyExn.other "net") rfl

end Vitess
